import Mathlib

/-!
Verification of the falcore connection-serving core (src/server.go).

The Go source is shallowly embedded: each loop of the source becomes a Lean
function over an explicit input schedule (what the network / peer / pipeline
returned at each step), emitting the observable events (reads, writes, log
lines, waitgroup operations, closes) in program order.  Helpers of the
repository that are not under src/ (SimpleResponse and the request-context
stage operations of request.go) are modelled from the spec and marked so.
-/

namespace Falcore

/-- An HTTP response as the handler observes it: status code and body text.
(src/server.go handles `*http.Response` opaquely; only the identity of the
value matters to the claims.) -/
structure Response where
  status : Nat
  body : String
deriving DecidableEq

/-- Modelled from the spec: `SimpleResponse` is defined elsewhere in the
repository (not under src/); per the spec it synthesizes a default response
from the status code and body given at the call site
(src/server.go:194 calls it with 404 and "Not Found"). -/
def SimpleResponse (status : Nat) (body : String) : Response :=
  { status := status, body := body }

/-- Errors `http.ReadRequest` can return, as src/server.go:208-213
distinguishes them: `io.ErrUnexpectedEOF` (the code's comment: "EOF is
socket closed", i.e. the peer closed the stream) versus any other error. -/
inductive ParseErr where
  | unexpectedEOF
  | other (msg : String)
deriving DecidableEq

/-- One read outcome on a connection: a successfully parsed request, carrying
its `Connection` header value (`req.Header.Get("Connection")`,
src/server.go:180) and the response the pipeline will yield for it
(src/server.go:193), or a parse error. -/
inductive Step where
  | parsed (connectionHeader : String) (pipelineResult : Option Response)
  | parseError (e : ParseErr)
deriving DecidableEq

/-- Observable events of a connection handler, in program order. -/
inductive Ev where
  | readReq (n : Nat)
  | writeResponse (n : Nat) (r : Response)
  | flush (n : Nat)
  | logReadError
  | logBufferFail
  | closeConn
  | wgDone
deriving DecidableEq

/-- The response the handler writes for a pipeline result: the pipeline's
response, or the synthesized 404 when the pipeline yields none
(src/server.go:193-195). -/
def respOf (o : Option Response) : Response :=
  o.getD (SimpleResponse 404 "Not Found")

/-- The keep-alive request loop of src/server.go:178-214.  The argument list
is the schedule of read outcomes the peer produces; `n` is the running
request count (`reqCount`).  Each iteration reads a request; on success it
writes the response through a fresh write buffer and flushes it, continuing
only when the request's `Connection` header equals "Keep-Alive"; on a parse
error it exits the loop, logging unless the error is `io.ErrUnexpectedEOF`. -/
def handlerLoop : List Step → Nat → List Ev
  | [], _ => []
  | Step.parsed hdr pres :: rest, n =>
      let evs := [Ev.readReq n, Ev.writeResponse n (respOf pres), Ev.flush n]
      if hdr == "Keep-Alive" then evs ++ handlerLoop rest (n + 1) else evs
  | Step.parseError e :: _, n =>
      Ev.readReq n :: (if e == ParseErr.unexpectedEOF then [] else [Ev.logReadError])

/-- The connection handler src/server.go:166-216.  `bufferOk` is whether
`bufio.NewReaderSize` succeeded (src/server.go:169-173).  The deferred
`connectionFinished` (src/server.go:229-232) closes the connection and then
decrements the waitgroup, on every exit path. -/
def handler (bufferOk : Bool) (steps : List Step) : List Ev :=
  (if bufferOk then handlerLoop steps 0 else [Ev.logBufferFail]) ++ [Ev.closeConn, Ev.wgDone]

/-- Number of responses written in an event trace. -/
def writeCount (l : List Ev) : Nat :=
  (l.filter fun e => match e with | Ev.writeResponse _ _ => true | _ => false).length

/-- Number of read-error log lines in an event trace (src/server.go:211). -/
def logReadCount (l : List Ev) : Nat :=
  l.count Ev.logReadError

/-- Number of connection closes in an event trace. -/
def closeCount (l : List Ev) : Nat :=
  l.count Ev.closeConn

/-- Number of waitgroup decrements in an event trace. -/
def doneCount (l : List Ev) : Nat :=
  l.count Ev.wgDone

/-- An error returned by `srv.listener.Accept()` as src/server.go:142-148
distinguishes them: a `*net.OpError` carries its `Timeout()` and
`Temporary()` results; any other `os.Error` has neither method (in this
Go era `os.Error` is just an interface with `String()`). -/
inductive AcceptErr where
  | opError (isTimeout isTemporary : Bool)
  | otherError (msg : String)
deriving DecidableEq

/-- Whether an accept error is both a timeout and temporary: only a
`*net.OpError` has these predicates (src/server.go:142-143). -/
def isTimeoutAndTemporary : AcceptErr → Bool
  | AcceptErr.opError t tmp => t && tmp
  | AcceptErr.otherError _ => false

/-- One outcome of the accept call: a connection (identified by a number) or
an error. -/
inductive AcceptOutcome where
  | conn (id : Nat)
  | err (e : AcceptErr)
deriving DecidableEq

/-- One iteration's input to serve's for-loop: what `Accept` returned, and
whether a `StopAccepting` sender was pending at the non-blocking select of
src/server.go:154-158. -/
structure IterIn where
  outcome : AcceptOutcome
  stopPending : Bool
deriving DecidableEq

/-- Observable events of the accept loop, in program order. -/
inductive SEv where
  | logAcceptError
  | wgAdd (id : Nat)
  | dispatch (id : Nat)
  | stopReceived
deriving DecidableEq

/-- Whether the accept-error branch logs (src/server.go:141-148): a
`*net.OpError` that is both `Timeout()` and `Temporary()` is silently
ignored; every other accept error is logged. -/
def acceptErrorLogged (e : AcceptErr) : Bool :=
  !(isTimeoutAndTemporary e)

/-- Events of serve's handling of one accept outcome (src/server.go:141-153):
log the error (unless transient), or `Add(1)` on the waitgroup and then
dispatch the handler goroutine. -/
def outcomeEvs : AcceptOutcome → List SEv
  | AcceptOutcome.conn id => [SEv.wgAdd id, SEv.dispatch id]
  | AcceptOutcome.err e => if acceptErrorLogged e then [SEv.logAcceptError] else []

/-- One iteration of serve's for-loop body (src/server.go:138-159): handle
the accept outcome, then poll the `stopAccepting` channel at the
non-blocking select; a received stop sets `accept = false`.  Returns the
emitted events and whether the loop continues. -/
def serveIter (i : IterIn) : List SEv × Bool :=
  if i.stopPending then (outcomeEvs i.outcome ++ [SEv.stopReceived], false)
  else (outcomeEvs i.outcome, true)

/-- serve's accept loop (src/server.go:138-159) over a finite schedule of
iteration inputs; once the loop exits, remaining schedule entries are never
consumed. -/
def serveLoop : List IterIn → List SEv
  | [] => []
  | i :: rest =>
      (serveIter i).1 ++ (if (serveIter i).2 then serveLoop rest else [])

/-- serve (src/server.go:135-164): run the accept loop, wait for the handler
waitgroup, and return nil (src/server.go:163). -/
def serve (sched : List IterIn) : List SEv × Option String :=
  (serveLoop sched, none)

/-- Connection ids dispatched to handler goroutines by the accept loop. -/
def dispatches (l : List SEv) : List Nat :=
  l.filterMap fun e => match e with | SEv.dispatch id => some id | _ => none

/-- Number of waitgroup increments (`Add(1)`, src/server.go:151). -/
def addCount (l : List SEv) : Nat :=
  (l.filter fun e => match e with | SEv.wgAdd _ => true | _ => false).length

/-- Number of accept-error log lines (src/server.go:144 and 147). -/
def logAcceptCount (l : List SEv) : Nat :=
  l.count SEv.logAcceptError

/-- Number of times the accept loop actually received from the unbuffered
`stopAccepting` channel (src/server.go:155). -/
def stopReceives (sched : List IterIn) : Nat :=
  (serveLoop sched).count SEv.stopReceived

/-- Every waitgroup `Add(1)` is immediately followed by the dispatch of the
same connection, and every dispatch is so preceded (src/server.go:151-152). -/
def wellPaired : List SEv → Bool
  | [] => true
  | SEv.wgAdd id :: SEv.dispatch id' :: rest => id == id' && wellPaired rest
  | SEv.wgAdd _ :: _ => false
  | SEv.dispatch _ :: _ => false
  | SEv.logAcceptError :: rest => wellPaired rest
  | SEv.stopReceived :: rest => wellPaired rest

/-- The waitgroup counter after the accept loop has run and every dispatched
handler goroutine has exited: serve-side increments minus each dispatched
handler's decrements, where `hin` gives each connection's handler input. -/
def finalCounter (sched : List IterIn) (hin : Nat → Bool × List Step) : Int :=
  (addCount (serveLoop sched) : Int) -
    ((dispatches (serveLoop sched)).map
      (fun id => (doneCount (handler (hin id).1 (hin id).2) : Int))).sum

/-- What `net.FileListener` makes of a file descriptor: it can fail (the fd
is not a listening socket), or yield a listener that is or is not a
`*net.TCPListener` (src/server.go:43-46). -/
inductive FdKind where
  | notListener
  | listener (isTCP : Bool)
deriving DecidableEq

/-- A listener handle: whether it is a `*net.TCPListener`, the accept
timeout set on it via `SetTimeout` (nanoseconds), and the fd it was adopted
from (`none` for a freshly bound listener). -/
structure Listener where
  isTCP : Bool
  acceptTimeoutNs : Option Nat
  fromFd : Option Nat
deriving DecidableEq

/-- The Server fields the bootstrap claims touch (src/server.go:18-27). -/
structure ServerState where
  addr : String
  listener : Option Listener
  listenerFile : Option Nat
deriving DecidableEq

/-- Startup errors of the bootstrap (src/server.go:40-74).  `notTCPErr` is
the "Broken listener isn't TCP" error of src/server.go:49. -/
inductive GoErr where
  | fileListenerErr
  | notTCPErr
  | resolveErr
  | bindErr
  | fileErr
  | nonblockErr
deriving DecidableEq

/-- FdListen (src/server.go:40-52): wrap the fd as an `os.File`, obtain a
listener from it via `net.FileListener` (assigning `srv.listener` before the
error check), and require it to be a `*net.TCPListener`, setting the
3-second accept timeout (`SetTimeout(3e9)`) when it is.  `env` says what
each fd wraps to. -/
def FdListen (env : Nat → FdKind) (fd : Nat) (s : ServerState) :
    ServerState × Option GoErr :=
  let s1 := { s with listenerFile := some fd }
  match env fd with
  | FdKind.notListener => ({ s1 with listener := none }, some GoErr.fileListenerErr)
  | FdKind.listener isTCP =>
      if isTCP then
        let l : Listener := { isTCP := true, acceptTimeoutNs := some 3000000000, fromFd := some fd }
        ({ s1 with listener := some l }, none)
      else
        let l : Listener := { isTCP := false, acceptTimeoutNs := none, fromFd := some fd }
        ({ s1 with listener := some l }, some GoErr.notTCPErr)

/-- Environment for a fresh bind: which of socketListen's steps succeed, and
the fd the new listener's file exposes. -/
structure NetEnv where
  resolveOk : Bool
  bindOk : Bool
  fileOk : Bool
  nonblockOk : Bool
  freshFd : Nat
deriving DecidableEq

/-- socketListen (src/server.go:54-74): resolve the address, bind a fresh
`*net.TCPListener` (assigned to `srv.listener`), extract its file, mark the
fd non-blocking, and set the 3-second accept timeout (`SetTimeout(3e9)`,
src/server.go:72). -/
def socketListen (env : NetEnv) (s : ServerState) : ServerState × Option GoErr :=
  if !env.resolveOk then (s, some GoErr.resolveErr)
  else if !env.bindOk then (s, some GoErr.bindErr)
  else
    let l0 : Listener := { isTCP := true, acceptTimeoutNs := none, fromFd := none }
    let s1 := { s with listener := some l0 }
    if !env.fileOk then (s1, some GoErr.fileErr)
    else
      let s2 := { s1 with listenerFile := some env.freshFd }
      if !env.nonblockOk then (s2, some GoErr.nonblockErr)
      else
        let l1 : Listener := { isTCP := true, acceptTimeoutNs := some 3000000000, fromFd := none }
        ({ s2 with listener := some l1 }, none)

/-- Outcome of `ListenAndServe`: the state at serve entry, the listener serve
ran on (`none` when startup failed before serving), the startup error, and
whether `socketListen` was invoked to bind a fresh listener. -/
structure LASOut where
  state : ServerState
  served : Option Listener
  startupErr : Option GoErr
  boundFresh : Bool
deriving DecidableEq

/-- ListenAndServe (src/server.go:76-86): default the address, bind a fresh
listener only when `srv.listener == nil`, then serve on `srv.listener`. -/
def ListenAndServe (env : NetEnv) (s : ServerState) : LASOut :=
  let s0 := if s.addr == "" then { s with addr := ":http" } else s
  match s0.listener with
  | some l => { state := s0, served := some l, startupErr := none, boundFresh := false }
  | none =>
      match socketListen env s0 with
      | (s1, some e) => { state := s1, served := none, startupErr := some e, boundFresh := true }
      | (s1, none) => { state := s1, served := s1.listener, startupErr := none, boundFresh := true }

/-- One stage-timing record: stage name, start and end timestamps
(PipelineStageStat, used at src/server.go:187-191; its definition lives in
the repository outside src/). -/
structure PipelineStageStat where
  name : String
  startTime : Nat
  endTime : Nat
deriving DecidableEq

/-- Modelled from the spec: the pipeline's stages (external collaborator,
§4.4) run sequentially in real time, each free to append its own
stage-timing record spanning its own run.  Input: the current clock and each
stage's (name, delay-before-start, duration); output: the appended records,
in the order run, and the clock afterwards. -/
def runPipelineStages : Nat → List (String × Nat × Nat) → List PipelineStageStat × Nat
  | t, [] => ([], t)
  | t, (nm, pre, len) :: rest =>
      let s := t + pre
      let e := s + len
      let out := runPipelineStages e rest
      ({ name := nm, startTime := s, endTime := e } :: out.1, out.2)

/-- The stage-timing sequence a completed request carries, assembled by the
handler (src/server.go:183-206): first the "server.Init" record spanning
from the connection's start timestamp to the moment the request context was
built (`pssInit`, src/server.go:187-191), then whatever records the pipeline
appended while executing (src/server.go:193), then the "server.ResponseWrite"
record around closing the request body, writing and flushing the response
(src/server.go:197-205).  The request-context operations
(`appendPipelineStage`, `startPipelineStage`, `finishPipelineStage`,
`finishRequest`) are in the repository's request code, not under src/;
modelled from the spec: they append records at the end of the sequence,
never reordering or removing, and `finishRequest` appends nothing.
Times are clock readings: `connStart + buildDelta` is `time.Nanoseconds()`
when `pssInit.EndTime` is taken, and the write stage starts `writeDelta`
after the pipeline finished and lasts `writeLen`. -/
def requestStageTimings (connStart buildDelta : Nat)
    (stages : List (String × Nat × Nat)) (writeDelta writeLen : Nat) :
    List PipelineStageStat :=
  let buildTime := connStart + buildDelta
  let run := runPipelineStages buildTime stages
  ({ name := "server.Init", startTime := connStart, endTime := buildTime } :: run.1)
    ++ [{ name := "server.ResponseWrite", startTime := run.2 + writeDelta,
          endTime := run.2 + writeDelta + writeLen }]

/-- Go channel semantics bridge: `stopAccepting` is an unbuffered channel
(src/server.go:33), so a `StopAccepting` call (src/server.go:120-122) — a
blocking send — completes exactly when the accept loop receives from the
channel; with `m` calls made over the server's lifetime, the m-th call
completes only if the loop performs at least m receives. -/
def StopAcceptingCompletes (m : Nat) (sched : List IterIn) : Prop :=
  m ≤ stopReceives sched

/-- Peer schedule for the keep-alive scenario: requests `k` through
`k + n - 1` carry `Connection: Keep-Alive`; request `k + n` carries
`lastHdr` instead.  `pres` gives the pipeline result for each request. -/
def kaSchedFrom (pres : Nat → Option Response) (lastHdr : String) (k : Nat) :
    Nat → List Step
  | 0 => [Step.parsed lastHdr (pres k)]
  | n + 1 => Step.parsed "Keep-Alive" (pres k) :: kaSchedFrom pres lastHdr (k + 1) n

/-- Peer schedule ending in a parse error: requests `k` through `k + n - 1`
carry `Connection: Keep-Alive`; the next read fails with `e`. -/
def errSchedFrom (pres : Nat → Option Response) (e : ParseErr) (k : Nat) :
    Nat → List Step
  | 0 => [Step.parseError e]
  | n + 1 => Step.parsed "Keep-Alive" (pres k) :: errSchedFrom pres e (k + 1) n

/-- The events of one full request/response cycle for request `i`. -/
def cycle (pres : Nat → Option Response) (i : Nat) : List Ev :=
  [Ev.readReq i, Ev.writeResponse i (respOf (pres i)), Ev.flush i]

/-- The events of `n + 1` full request cycles, requests `k` through `k+n`. -/
def traceFrom (pres : Nat → Option Response) (k : Nat) : Nat → List Ev
  | 0 => cycle pres k
  | n + 1 => cycle pres k ++ traceFrom pres (k + 1) n

/-- The events of `n` full request cycles, requests `k` through `k+n-1`. -/
def cyclesKA (pres : Nat → Option Response) (k : Nat) : Nat → List Ev
  | 0 => []
  | n + 1 => cycle pres k ++ cyclesKA pres (k + 1) n

lemma handlerLoop_kaSched (pres : Nat → Option Response) (lastHdr : String)
    (h : (lastHdr == "Keep-Alive") = false) (junk : List Step) :
    ∀ n k, handlerLoop (kaSchedFrom pres lastHdr k n ++ junk) k = traceFrom pres k n := by
  intro n
  induction n with
  | zero =>
      intro k
      simp [kaSchedFrom, handlerLoop, h, traceFrom, cycle]
  | succ n ih =>
      intro k
      simp [kaSchedFrom, handlerLoop, traceFrom, cycle, ih]

lemma writeCount_append (a b : List Ev) :
    writeCount (a ++ b) = writeCount a + writeCount b := by
  simp [writeCount, List.filter_append]

lemma writeCount_cycle (pres : Nat → Option Response) (i : Nat) :
    writeCount (cycle pres i) = 1 := by
  simp [writeCount, cycle]

lemma writeCount_traceFrom (pres : Nat → Option Response) :
    ∀ n k, writeCount (traceFrom pres k n) = n + 1 := by
  intro n
  induction n with
  | zero => intro k; simp [traceFrom, writeCount_cycle]
  | succ n ih =>
      intro k
      simp [traceFrom, writeCount_append, writeCount_cycle, ih]
      omega

lemma traceFrom_head (pres : Nat → Option Response) :
    ∀ n k, (traceFrom pres k n).head? = some (Ev.readReq k) := by
  intro n
  cases n with
  | zero => intro k; simp [traceFrom, cycle]
  | succ n => intro k; simp [traceFrom, cycle]

lemma traceFrom_split (pres : Nat → Option Response) :
    ∀ n k i, i < n →
      ∃ A B, traceFrom pres k n = A ++ B ∧ Ev.flush (k + i) ∈ A ∧
        B.head? = some (Ev.readReq (k + i + 1)) ∧ Ev.readReq (k + i + 1) ∉ A := by
  intro n
  induction n with
  | zero => intro k i h; exact absurd h (Nat.not_lt_zero i)
  | succ n ih =>
      intro k i h
      cases i with
      | zero =>
          refine ⟨cycle pres k, traceFrom pres (k + 1) n, rfl, ?_, ?_, ?_⟩
          · simp [cycle]
          · rw [traceFrom_head]
          · simp [cycle]
      | succ j =>
          obtain ⟨A, B, hEq, hFl, hHd, hNi⟩ := ih (k + 1) j (by omega)
          have hidx : k + (j + 1) = k + 1 + j := by omega
          have hidx1 : k + (j + 1) + 1 = k + 1 + j + 1 := by omega
          refine ⟨cycle pres k ++ A, B, ?_, ?_, ?_, ?_⟩
          · show cycle pres k ++ traceFrom pres (k + 1) n = cycle pres k ++ A ++ B
            rw [hEq, List.append_assoc]
          · rw [hidx]
            exact List.mem_append_right _ hFl
          · rw [hidx1]
            exact hHd
          · intro hmem
            rcases List.mem_append.mp hmem with hc | hA
            · simp [cycle] at hc
              omega
            · rw [hidx1] at hA
              exact hNi hA

lemma handlerLoop_no_lifecycle : ∀ (steps : List Step) (n : Nat),
    Ev.closeConn ∉ handlerLoop steps n ∧ Ev.wgDone ∉ handlerLoop steps n := by
  intro steps
  induction steps with
  | nil => intro n; simp [handlerLoop]
  | cons s rest ih =>
      intro n
      cases s with
      | parsed hdr pres =>
          have h := ih (n + 1)
          by_cases hb : (hdr == "Keep-Alive") = true
          · simp [handlerLoop, hb]
            exact ⟨h.1, h.2⟩
          · simp [handlerLoop, hb]
      | parseError e =>
          by_cases hb : (e == ParseErr.unexpectedEOF) = true
          · simp [handlerLoop, hb]
          · simp [handlerLoop, hb]

lemma closeCount_handler (b : Bool) (steps : List Step) :
    closeCount (handler b steps) = 1 := by
  cases b with
  | false => simp [handler, closeCount]
  | true =>
      simp [handler, closeCount, List.count_append]
      exact List.count_eq_zero.mpr (handlerLoop_no_lifecycle steps 0).1

lemma doneCount_handler (b : Bool) (steps : List Step) :
    doneCount (handler b steps) = 1 := by
  cases b with
  | false => simp [handler, doneCount]
  | true =>
      simp [handler, doneCount, List.count_append]
      exact List.count_eq_zero.mpr (handlerLoop_no_lifecycle steps 0).2

/-- C3: with `N` requests explicitly asking keep-alive followed by one that
does not, the handler produces exactly the `N + 1` request cycles and then
the close: `N + 1` responses are written (the last request's response
included), the connection close comes after the last response, any further
peer input is never read, and request `i + 1` is read only after request
`i`'s response has been written and flushed. -/
theorem keepAlive_loop_writes_and_order
    (N : Nat) (pres : Nat → Option Response) (lastHdr : String)
    (h : (lastHdr == "Keep-Alive") = false) (junk : List Step) :
    handler true (kaSchedFrom pres lastHdr 0 N ++ junk)
        = traceFrom pres 0 N ++ [Ev.closeConn, Ev.wgDone]
    ∧ writeCount (handler true (kaSchedFrom pres lastHdr 0 N ++ junk)) = N + 1
    ∧ closeCount (handler true (kaSchedFrom pres lastHdr 0 N ++ junk)) = 1
    ∧ ∀ i, i < N → ∃ A B,
        handler true (kaSchedFrom pres lastHdr 0 N ++ junk) = A ++ B
        ∧ Ev.flush i ∈ A ∧ B.head? = some (Ev.readReq (i + 1))
        ∧ Ev.readReq (i + 1) ∉ A := by
  have htr : handler true (kaSchedFrom pres lastHdr 0 N ++ junk)
      = traceFrom pres 0 N ++ [Ev.closeConn, Ev.wgDone] := by
    simp [handler, handlerLoop_kaSched pres lastHdr h junk N 0]
  refine ⟨htr, ?_, closeCount_handler true _, ?_⟩
  · rw [htr, writeCount_append, writeCount_traceFrom]
    simp [writeCount]
  · intro i hi
    obtain ⟨A, B, hEq, hFl, hHd, hNi⟩ := traceFrom_split pres N 0 i hi
    refine ⟨A, B ++ [Ev.closeConn, Ev.wgDone], ?_, ?_, ?_, ?_⟩
    · rw [htr, hEq, List.append_assoc]
    · simpa using hFl
    · rcases B with _ | ⟨b, B'⟩
      · simp at hHd
      · simpa using hHd
    · simpa using hNi

/-- Witness for `keepAlive_loop_writes_and_order` at `N = 1`, an absent
`Connection` header (`Get` returns the empty string) and a pipeline that
yields no response. -/
theorem keepAlive_loop_writes_and_order_witness :
    writeCount (handler true (kaSchedFrom (fun _ => none) "" 0 1 ++ [])) = 2 :=
  (keepAlive_loop_writes_and_order 1 (fun _ => none) "" (by decide) []).2.1

lemma handlerLoop_errSched (pres : Nat → Option Response) (e : ParseErr)
    (junk : List Step) :
    ∀ n k, handlerLoop (errSchedFrom pres e k n ++ junk) k
      = cyclesKA pres k n
        ++ (Ev.readReq (k + n)
              :: (if e == ParseErr.unexpectedEOF then [] else [Ev.logReadError])) := by
  intro n
  induction n with
  | zero => intro k; simp [errSchedFrom, handlerLoop, cyclesKA]
  | succ n ih =>
      intro k
      have hidx : k + 1 + n = k + (n + 1) := by omega
      simp [errSchedFrom, handlerLoop, cyclesKA, cycle, ih, hidx]

lemma logRead_not_in_cyclesKA (pres : Nat → Option Response) :
    ∀ n k, Ev.logReadError ∉ cyclesKA pres k n := by
  intro n
  induction n with
  | zero => intro k; simp [cyclesKA]
  | succ n ih => intro k; simp [cyclesKA, cycle, ih]

/-- C4: when reading the next request fails after `n` keep-alive requests,
the handler exits the request loop in either case (nothing beyond the
failing read is consumed; the deferred cleanup follows immediately), and it
logs exactly one read error unless the failure is `io.ErrUnexpectedEOF`,
the condition the code treats as the peer having closed the stream, which
is not logged at all. -/
theorem parse_error_exit_and_logging
    (pres : Nat → Option Response) (e : ParseErr) (n : Nat) (junk : List Step) :
    handler true (errSchedFrom pres e 0 n ++ junk)
        = cyclesKA pres 0 n
          ++ (Ev.readReq n
                :: (if e == ParseErr.unexpectedEOF then [] else [Ev.logReadError]))
          ++ [Ev.closeConn, Ev.wgDone]
    ∧ logReadCount (handler true (errSchedFrom pres e 0 n ++ junk))
        = (if e == ParseErr.unexpectedEOF then 0 else 1) := by
  have htr := handlerLoop_errSched pres e junk n 0
  rw [Nat.zero_add] at htr
  have hfull : handler true (errSchedFrom pres e 0 n ++ junk)
      = cyclesKA pres 0 n
        ++ (Ev.readReq n
              :: (if e == ParseErr.unexpectedEOF then [] else [Ev.logReadError]))
        ++ [Ev.closeConn, Ev.wgDone] := by
    simp [handler, htr]
  refine ⟨hfull, ?_⟩
  rw [hfull]
  have hz : logReadCount (cyclesKA pres 0 n) = 0 :=
    List.count_eq_zero.mpr (logRead_not_in_cyclesKA pres n 0)
  by_cases he : (e == ParseErr.unexpectedEOF) = true
  · simp [he, logReadCount, List.count_append] at hz ⊢
    simpa [logReadCount] using hz
  · simp [he, logReadCount, List.count_append] at hz ⊢
    simpa [logReadCount] using hz

/-- C6: a request whose pipeline execution yields no response gets the
synthesized `SimpleResponse 404 "Not Found"` written in its place; the
default response is exactly status 404 with body "Not Found"
(src/server.go:193-195). -/
theorem nil_pipeline_result_writes_404 (hdr : String) (rest : List Step) (k : Nat) :
    handlerLoop (Step.parsed hdr none :: rest) k
      = [Ev.readReq k, Ev.writeResponse k (SimpleResponse 404 "Not Found"), Ev.flush k]
        ++ (if hdr == "Keep-Alive" then handlerLoop rest (k + 1) else [])
    ∧ SimpleResponse 404 "Not Found" = { status := 404, body := "Not Found" } := by
  constructor
  · by_cases hb : (hdr == "Keep-Alive") = true
    · simp [handlerLoop, hb, respOf]
    · simp [handlerLoop, hb, respOf]
  · rfl

lemma serveLoop_cons_stop (i : IterIn) (rest : List IterIn) (h : i.stopPending = true) :
    serveLoop (i :: rest) = outcomeEvs i.outcome ++ [SEv.stopReceived] := by
  simp [serveLoop, serveIter, h]

lemma serveLoop_cons_go (i : IterIn) (rest : List IterIn) (h : i.stopPending = false) :
    serveLoop (i :: rest) = outcomeEvs i.outcome ++ serveLoop rest := by
  simp [serveLoop, serveIter, h]

lemma stop_not_in_outcomeEvs (o : AcceptOutcome) : SEv.stopReceived ∉ outcomeEvs o := by
  cases o with
  | conn id => simp [outcomeEvs]
  | err e => by_cases h : acceptErrorLogged e = true <;> simp [outcomeEvs, h]

lemma append_eq_cons_of_not_mem {α : Type} :
    ∀ (a l pre post : List α) (x : α), x ∉ a → a ++ l = pre ++ x :: post →
      ∃ preTail, l = preTail ++ x :: post := by
  intro a
  induction a with
  | nil =>
      intro l pre post x _ h
      exact ⟨pre, by simpa using h⟩
  | cons y a2 ih =>
      intro l pre post x hx h
      cases pre with
      | nil =>
          simp at h
          exact absurd h.1 (by simp at hx; exact fun hyx => hx.1 hyx.symm)
      | cons p preRest =>
          simp at h
          exact ih l preRest post x (by simp at hx; exact hx.2) h.2

lemma serveLoop_stop_last : ∀ (sched : List IterIn) (pre post : List SEv),
    serveLoop sched = pre ++ SEv.stopReceived :: post → post = [] := by
  intro sched
  induction sched with
  | nil =>
      intro pre post h
      simp [serveLoop] at h
  | cons i rest ih =>
      intro pre post h
      cases hs : i.stopPending with
      | true =>
          rw [serveLoop_cons_stop i rest hs] at h
          obtain ⟨preTail, hTail⟩ :=
            append_eq_cons_of_not_mem _ _ _ _ _ (stop_not_in_outcomeEvs i.outcome) h
          cases preTail with
          | nil => simpa using hTail.symm
          | cons q qs =>
              have := congrArg List.length hTail
              simp at this
      | false =>
          rw [serveLoop_cons_go i rest hs] at h
          obtain ⟨preTail, hTail⟩ :=
            append_eq_cons_of_not_mem _ _ _ _ _ (stop_not_in_outcomeEvs i.outcome) h
          exact ih preTail post hTail

lemma stopReceives_le_one : ∀ sched : List IterIn, stopReceives sched ≤ 1 := by
  intro sched
  induction sched with
  | nil => simp [stopReceives, serveLoop]
  | cons i rest ih =>
      cases hs : i.stopPending with
      | true =>
          simp [stopReceives, serveLoop_cons_stop i rest hs, List.count_append,
                List.count_eq_zero.mpr (stop_not_in_outcomeEvs i.outcome)]
      | false =>
          simpa [stopReceives, serveLoop_cons_go i rest hs, List.count_append,
                List.count_eq_zero.mpr (stop_not_in_outcomeEvs i.outcome)] using ih

lemma serveLoop_append_of_stop : ∀ sched extra : List IterIn,
    1 ≤ stopReceives sched → serveLoop (sched ++ extra) = serveLoop sched := by
  intro sched
  induction sched with
  | nil =>
      intro extra h
      simp [stopReceives, serveLoop] at h
  | cons i rest ih =>
      intro extra h
      cases hs : i.stopPending with
      | true =>
          rw [List.cons_append, serveLoop_cons_stop i (rest ++ extra) hs,
              serveLoop_cons_stop i rest hs]
      | false =>
          rw [List.cons_append, serveLoop_cons_go i (rest ++ extra) hs,
              serveLoop_cons_go i rest hs]
          congr 1
          apply ih
          simpa [stopReceives, serveLoop_cons_go i rest hs, List.count_append,
                List.count_eq_zero.mpr (stop_not_in_outcomeEvs i.outcome)] using h

lemma wellPaired_outcome_append (o : AcceptOutcome) (t : List SEv)
    (ht : wellPaired t = true) : wellPaired (outcomeEvs o ++ t) = true := by
  cases o with
  | conn id => simpa [outcomeEvs, wellPaired] using ht
  | err e =>
      by_cases h : acceptErrorLogged e = true
      · simpa [outcomeEvs, h, wellPaired] using ht
      · simpa [outcomeEvs, h, wellPaired] using ht

lemma wellPaired_serveLoop : ∀ sched : List IterIn,
    wellPaired (serveLoop sched) = true := by
  intro sched
  induction sched with
  | nil => simp [serveLoop, wellPaired]
  | cons i rest ih =>
      cases hs : i.stopPending with
      | true =>
          rw [serveLoop_cons_stop i rest hs]
          exact wellPaired_outcome_append _ _ (by simp [wellPaired])
      | false =>
          rw [serveLoop_cons_go i rest hs]
          exact wellPaired_outcome_append _ _ ih

lemma addCount_append (a b : List SEv) :
    addCount (a ++ b) = addCount a + addCount b := by
  simp [addCount, List.filter_append]

lemma dispatches_append (a b : List SEv) :
    dispatches (a ++ b) = dispatches a ++ dispatches b := by
  simp [dispatches]

lemma addCount_outcome (o : AcceptOutcome) :
    addCount (outcomeEvs o) = (dispatches (outcomeEvs o)).length := by
  cases o with
  | conn id => simp [outcomeEvs, addCount, dispatches]
  | err e =>
      by_cases h : acceptErrorLogged e = true <;>
        simp [outcomeEvs, addCount, dispatches, h]

lemma addCount_eq_dispatches : ∀ sched : List IterIn,
    addCount (serveLoop sched) = (dispatches (serveLoop sched)).length := by
  intro sched
  induction sched with
  | nil => simp [serveLoop, addCount, dispatches]
  | cons i rest ih =>
      cases hs : i.stopPending with
      | true =>
          rw [serveLoop_cons_stop i rest hs, addCount_append, dispatches_append]
          have h1 : addCount [SEv.stopReceived] = 0 := by simp [addCount]
          have h2 : dispatches [SEv.stopReceived] = [] := by simp [dispatches]
          rw [h1, h2, addCount_outcome]
          simp
      | false =>
          rw [serveLoop_cons_go i rest hs, addCount_append, dispatches_append]
          rw [addCount_outcome, ih]
          simp

lemma finalCounter_zero (sched : List IterIn) (hin : Nat → Bool × List Step) :
    finalCounter sched hin = 0 := by
  unfold finalCounter
  have hsum : ∀ l : List Nat,
      (l.map (fun id => (doneCount (handler (hin id).1 (hin id).2) : Int))).sum
        = (l.length : Int) := by
    intro l
    induction l with
    | nil => simp
    | cons x xs ih =>
        simp [ih, doneCount_handler]
        omega
  rw [hsum, addCount_eq_dispatches]
  omega

/-- C1: every accepted connection's waitgroup increment happens exactly once
and immediately before its handler dispatch (src/server.go:151-152); every
handler — whatever its exit path, read-buffer allocation failure and parse
error included — closes the connection exactly once and decrements the
waitgroup exactly once (src/server.go:168, 229-232); hence after all
dispatched handlers have exited the counter is back to zero. -/
theorem counter_balanced_on_all_paths :
    (∀ (bufferOk : Bool) (steps : List Step),
        closeCount (handler bufferOk steps) = 1
          ∧ doneCount (handler bufferOk steps) = 1)
    ∧ (∀ sched : List IterIn,
        wellPaired (serveLoop sched) = true
          ∧ addCount (serveLoop sched) = (dispatches (serveLoop sched)).length)
    ∧ ∀ (sched : List IterIn) (hin : Nat → Bool × List Step),
        finalCounter sched hin = 0 :=
  ⟨fun b steps => ⟨closeCount_handler b steps, doneCount_handler b steps⟩,
   fun sched => ⟨wellPaired_serveLoop sched, addCount_eq_dispatches sched⟩,
   finalCounter_zero⟩

/-- C2: once the accept loop observes the shutdown signal, the receive is
the last event of the loop — no connection is accepted afterwards; the
subsequent waitgroup wait terminates exactly when every dispatched handler
has performed its single decrement (counter zero), and serve returns nil
(src/server.go:154-163). -/
theorem shutdown_drains_then_returns_nil :
    (∀ (sched : List IterIn) (pre post : List SEv),
        serveLoop sched = pre ++ SEv.stopReceived :: post → post = [])
    ∧ (∀ (sched : List IterIn) (hin : Nat → Bool × List Step),
        finalCounter sched hin = 0)
    ∧ ∀ sched : List IterIn, (serve sched).2 = none :=
  ⟨serveLoop_stop_last, finalCounter_zero, fun _ => rfl⟩

/-- Witness for `shutdown_drains_then_returns_nil` at a one-iteration
schedule whose accept call timed out while a stop request was pending. -/
theorem shutdown_drains_then_returns_nil_witness :
    ([] : List SEv) = []
    ∧ finalCounter
        [{ outcome := AcceptOutcome.conn 3, stopPending := true }]
        (fun _ => (true, [])) = 0 :=
  ⟨shutdown_drains_then_returns_nil.1
      [{ outcome := AcceptOutcome.err (AcceptErr.opError true true),
         stopPending := true }] [] [] (by decide),
   shutdown_drains_then_returns_nil.2.1 _ _⟩

/-- C8: an accept error never ends the accept loop (continuation depends
only on the stop signal), a `*net.OpError` that is both a timeout and
temporary is silently ignored, any other accept error is logged exactly
once, and no waitgroup increment or handler dispatch happens on the error
branch (src/server.go:140-153). -/
theorem accept_error_keeps_loop_running (e : AcceptErr) (stop : Bool) :
    (serveIter { outcome := AcceptOutcome.err e, stopPending := stop }).2 = !stop
    ∧ logAcceptCount
        (serveIter { outcome := AcceptOutcome.err e, stopPending := stop }).1
        = (if isTimeoutAndTemporary e then 0 else 1)
    ∧ addCount (serveIter { outcome := AcceptOutcome.err e, stopPending := stop }).1 = 0
    ∧ dispatches
        (serveIter { outcome := AcceptOutcome.err e, stopPending := stop }).1 = [] := by
  cases stop <;> by_cases h : isTimeoutAndTemporary e = true <;>
    simp [serveIter, outcomeEvs, acceptErrorLogged, h, logAcceptCount, addCount,
          dispatches, List.count_append]

/-- C5 counterexample: with two `StopAccepting` calls pending, the accept
loop receives from the unbuffered stop channel only once, so the second
call's send never completes — the claim that a repeated shutdown request
completes once the server has stopped is false on this schedule. -/
theorem second_stop_request_never_completes :
    stopReceives
        [{ outcome := AcceptOutcome.err (AcceptErr.opError true true),
           stopPending := true },
         { outcome := AcceptOutcome.err (AcceptErr.opError true true),
           stopPending := true }] = 1
    ∧ ¬ StopAcceptingCompletes 2
        [{ outcome := AcceptOutcome.err (AcceptErr.opError true true),
           stopPending := true },
         { outcome := AcceptOutcome.err (AcceptErr.opError true true),
           stopPending := true }] := by
  constructor
  · decide
  · exact (by decide : ¬ (2 ≤ stopReceives
        [{ outcome := AcceptOutcome.err (AcceptErr.opError true true),
           stopPending := true },
         { outcome := AcceptOutcome.err (AcceptErr.opError true true),
           stopPending := true }]))

/-- C5 amended: a single shutdown request stops acceptance (the loop exits
the iteration in which the signal is observed); the accept loop receives
from the unbuffered stop channel at most once over the server's lifetime,
so a second `StopAccepting` call after the server has stopped is never
received — its send blocks forever instead of completing — and pending
extra requests change nothing about the loop's behavior or state. -/
theorem stop_request_received_at_most_once :
    (∀ sched : List IterIn, stopReceives sched ≤ 1)
    ∧ (∀ (i : IterIn) (rest : List IterIn), i.stopPending = true →
        serveLoop (i :: rest) = outcomeEvs i.outcome ++ [SEv.stopReceived])
    ∧ ∀ sched extra : List IterIn, 1 ≤ stopReceives sched →
        serveLoop (sched ++ extra) = serveLoop sched :=
  ⟨stopReceives_le_one, serveLoop_cons_stop, serveLoop_append_of_stop⟩

/-- Witness for `stop_request_received_at_most_once` on concrete schedules. -/
theorem stop_request_received_at_most_once_witness :
    serveLoop [{ outcome := AcceptOutcome.conn 0, stopPending := true }]
        = outcomeEvs (AcceptOutcome.conn 0) ++ [SEv.stopReceived]
    ∧ serveLoop
        ([{ outcome := AcceptOutcome.conn 0, stopPending := true }]
          ++ [{ outcome := AcceptOutcome.conn 1, stopPending := false }])
        = serveLoop [{ outcome := AcceptOutcome.conn 0, stopPending := true }] :=
  ⟨stop_request_received_at_most_once.2.1 _ [] rfl,
   stop_request_received_at_most_once.2.2 _ _ (by decide)⟩

lemma runPipelineStages_final_ge (stages : List (String × Nat × Nat)) :
    ∀ t, t ≤ (runPipelineStages t stages).2 := by
  induction stages with
  | nil => intro t; simp [runPipelineStages]
  | cons s rest ih =>
      intro t
      obtain ⟨nm, pre, len⟩ := s
      simp only [runPipelineStages]
      exact le_trans (by omega) (ih (t + pre + len))

lemma runPipelineStages_mem_wf (stages : List (String × Nat × Nat)) :
    ∀ t r, r ∈ (runPipelineStages t stages).1 →
      t ≤ r.startTime ∧ r.startTime ≤ r.endTime
        ∧ r.endTime ≤ (runPipelineStages t stages).2 := by
  induction stages with
  | nil => intro t r h; simp [runPipelineStages] at h
  | cons s rest ih =>
      intro t r h
      obtain ⟨nm, pre, len⟩ := s
      simp only [runPipelineStages, List.mem_cons] at h
      simp only [runPipelineStages]
      rcases h with h | h
      · subst h
        refine ⟨?_, ?_, ?_⟩
        · show t ≤ t + pre
          omega
        · show t + pre ≤ t + pre + len
          omega
        · show t + pre + len ≤ _
          simpa using runPipelineStages_final_ge rest (t + pre + len)
      · have hr := ih (t + pre + len) r h
        refine ⟨?_, hr.2.1, hr.2.2⟩
        have := hr.1
        omega

lemma runPipelineStages_head_start (stages : List (String × Nat × Nat)) :
    ∀ t y, ((runPipelineStages t stages).1).head? = some y → t ≤ y.startTime := by
  cases stages with
  | nil => intro t y h; simp [runPipelineStages] at h
  | cons s rest =>
      intro t y h
      obtain ⟨nm, pre, len⟩ := s
      simp only [runPipelineStages, List.head?_cons, Option.some.injEq] at h
      rw [← h]
      show t ≤ t + pre
      omega

lemma runPipelineStages_chain_tail (w : PipelineStageStat)
    (stages : List (String × Nat × Nat)) :
    ∀ t, (runPipelineStages t stages).2 ≤ w.startTime →
      List.Chain' (fun a b => a.endTime ≤ b.startTime)
        ((runPipelineStages t stages).1 ++ [w]) := by
  induction stages with
  | nil => intro t h; simp [runPipelineStages]
  | cons s rest ih =>
      intro t h
      obtain ⟨nm, pre, len⟩ := s
      simp only [runPipelineStages] at h ⊢
      rw [List.cons_append, List.chain'_cons']
      refine ⟨?_, ih (t + pre + len) h⟩
      intro y hy
      cases hl : (runPipelineStages (t + pre + len) rest).1 with
      | nil =>
          rw [hl] at hy
          simp at hy
          subst hy
          have hfg := runPipelineStages_final_ge rest (t + pre + len)
          show t + pre + len ≤ w.startTime
          omega
      | cons z zs =>
          rw [hl] at hy
          simp at hy
          subst hy
          have hz : z ∈ (runPipelineStages (t + pre + len) rest).1 := by
            rw [hl]; exact List.mem_cons_self z zs
          have hmw := (runPipelineStages_mem_wf rest (t + pre + len) z hz).1
          show t + pre + len ≤ z.startTime
          omega

/-- C7: for a completed request, the stage-timing sequence the handler
assembles begins with the "server.Init" record spanning from the
connection's start timestamp to the moment the request context was built,
ends with the "server.ResponseWrite" record, satisfies end ≥ start on
every record, and is chained in the temporal order the stages ran
(src/server.go:183-206; request-context operations modelled from the
spec). -/
theorem stage_timings_ordered (connStart buildDelta : Nat)
    (stages : List (String × Nat × Nat)) (writeDelta writeLen : Nat) :
    (requestStageTimings connStart buildDelta stages writeDelta writeLen).head?
        = some { name := "server.Init", startTime := connStart,
                 endTime := connStart + buildDelta }
    ∧ (requestStageTimings connStart buildDelta stages writeDelta writeLen).getLast?
        = some { name := "server.ResponseWrite",
                 startTime := (runPipelineStages (connStart + buildDelta) stages).2
                   + writeDelta,
                 endTime := (runPipelineStages (connStart + buildDelta) stages).2
                   + writeDelta + writeLen }
    ∧ (∀ r ∈ requestStageTimings connStart buildDelta stages writeDelta writeLen,
        r.startTime ≤ r.endTime)
    ∧ List.Chain' (fun a b => a.endTime ≤ b.startTime)
        (requestStageTimings connStart buildDelta stages writeDelta writeLen) := by
  have hdef : requestStageTimings connStart buildDelta stages writeDelta writeLen
      = ({ name := "server.Init", startTime := connStart,
           endTime := connStart + buildDelta }
          :: (runPipelineStages (connStart + buildDelta) stages).1)
        ++ [{ name := "server.ResponseWrite",
              startTime := (runPipelineStages (connStart + buildDelta) stages).2
                + writeDelta,
              endTime := (runPipelineStages (connStart + buildDelta) stages).2
                + writeDelta + writeLen }] := rfl
  refine ⟨?_, ?_, ?_, ?_⟩
  · rw [hdef]
    simp
  · rw [hdef, List.getLast?_concat]
  · intro r hr
    rw [hdef] at hr
    simp only [List.cons_append, List.mem_cons, List.mem_append,
      List.mem_singleton, List.not_mem_nil, or_false] at hr
    rcases hr with hr | hr | hr
    · subst hr
      show connStart ≤ connStart + buildDelta
      omega
    · exact (runPipelineStages_mem_wf stages (connStart + buildDelta) r hr).2.1
    · subst hr
      show (runPipelineStages (connStart + buildDelta) stages).2 + writeDelta
          ≤ (runPipelineStages (connStart + buildDelta) stages).2 + writeDelta + writeLen
      omega
  · rw [hdef, List.cons_append, List.chain'_cons']
    constructor
    · intro y hy
      cases hl : (runPipelineStages (connStart + buildDelta) stages).1 with
      | nil =>
          rw [hl] at hy
          simp at hy
          subst hy
          have hfg := runPipelineStages_final_ge stages (connStart + buildDelta)
          show connStart + buildDelta
              ≤ (runPipelineStages (connStart + buildDelta) stages).2 + writeDelta
          omega
      | cons z zs =>
          rw [hl] at hy
          simp at hy
          subst hy
          have hz : z ∈ (runPipelineStages (connStart + buildDelta) stages).1 := by
            rw [hl]; exact List.mem_cons_self z zs
          have hmw := (runPipelineStages_mem_wf stages (connStart + buildDelta) z hz).1
          show connStart + buildDelta ≤ z.startTime
          omega
    · refine runPipelineStages_chain_tail _ stages (connStart + buildDelta) ?_
      show (runPipelineStages (connStart + buildDelta) stages).2
          ≤ (runPipelineStages (connStart + buildDelta) stages).2 + writeDelta
      omega

/-- Witness for `stage_timings_ordered`: a pipeline stage record of the
concrete run starting at clock 0 satisfies end ≥ start. -/
theorem stage_timings_ordered_witness : (2 : Nat) ≤ 4 :=
  (stage_timings_ordered 0 1 [("filterA", 1, 2)] 1 2).2.2.1
    { name := "filterA", startTime := 2, endTime := 4 } (by decide)

/-- C9: `FdListen` returns an error whenever the descriptor does not wrap
to a valid TCP listener (either `net.FileListener` fails or the listener is
not a `*net.TCPListener`, src/server.go:43-49); on a valid TCP listener
descriptor it succeeds and sets the same 3-second accept timeout
(`SetTimeout(3e9)`) that `socketListen` sets on a freshly bound listener
(src/server.go:47 and 72). -/
theorem fdListen_errors_and_matching_timeout (env : Nat → FdKind) (fd : Nat)
    (s : ServerState) (nenv : NetEnv) (s2 : ServerState) :
    (env fd ≠ FdKind.listener true → ((FdListen env fd s).2).isSome = true)
    ∧ (env fd = FdKind.listener true →
        (FdListen env fd s).2 = none
        ∧ ∃ l, (FdListen env fd s).1.listener = some l
            ∧ l.acceptTimeoutNs = some 3000000000)
    ∧ ((socketListen nenv s2).2 = none →
        ∃ l, (socketListen nenv s2).1.listener = some l
          ∧ l.acceptTimeoutNs = some 3000000000) := by
  refine ⟨?_, ?_, ?_⟩
  · intro h
    cases hk : env fd with
    | notListener => simp [FdListen, hk]
    | listener tcp =>
        cases tcp with
        | true => exact absurd hk h
        | false => simp [FdListen, hk]
  · intro h
    refine ⟨by simp [FdListen, h], ?_⟩
    refine ⟨{ isTCP := true, acceptTimeoutNs := some 3000000000, fromFd := some fd },
      ?_, rfl⟩
    simp [FdListen, h]
  · intro h
    cases hr : nenv.resolveOk with
    | false => simp [socketListen, hr] at h
    | true =>
        cases hb : nenv.bindOk with
        | false => simp [socketListen, hr, hb] at h
        | true =>
            cases hf : nenv.fileOk with
            | false => simp [socketListen, hr, hb, hf] at h
            | true =>
                cases hn : nenv.nonblockOk with
                | false => simp [socketListen, hr, hb, hf, hn] at h
                | true =>
                    refine ⟨{ isTCP := true, acceptTimeoutNs := some 3000000000,
                              fromFd := none }, ?_, rfl⟩
                    simp [socketListen, hr, hb, hf, hn]

/-- Witness for `fdListen_errors_and_matching_timeout`: adopting fd 4 that
wraps to a TCP listener succeeds with the 3-second timeout applied. -/
theorem fdListen_errors_and_matching_timeout_witness :
    (FdListen (fun _ => FdKind.listener true) 4
        { addr := ":8080", listener := none, listenerFile := none }).2 = none
    ∧ ∃ l, (FdListen (fun _ => FdKind.listener true) 4
        { addr := ":8080", listener := none, listenerFile := none }).1.listener = some l
        ∧ l.acceptTimeoutNs = some 3000000000 :=
  (fdListen_errors_and_matching_timeout (fun _ => FdKind.listener true) 4
      { addr := ":8080", listener := none, listenerFile := none }
      { resolveOk := true, bindOk := true, fileOk := true, nonblockOk := true,
        freshFd := 7 }
      { addr := ":8080", listener := none, listenerFile := none }).2.1 rfl

/-- C10: when `FdListen` fails because the adopted descriptor wraps to a
non-TCP listener, `srv.listener` stays set to that listener
(src/server.go:43 assigns it before the check at 46-50), so a subsequent
`ListenAndServe` finds the listener non-nil, skips the fresh bind, and
serves on the adopted non-TCP listener instead of binding the configured
address (src/server.go:80-85). -/
theorem fdListen_failure_leaves_listener_set (env : Nat → FdKind) (fd : Nat)
    (s : ServerState) (nenv : NetEnv) (h : env fd = FdKind.listener false) :
    (FdListen env fd s).2 = some GoErr.notTCPErr
    ∧ (FdListen env fd s).1.listener
        = some { isTCP := false, acceptTimeoutNs := none, fromFd := some fd }
    ∧ (ListenAndServe nenv (FdListen env fd s).1).boundFresh = false
    ∧ (ListenAndServe nenv (FdListen env fd s).1).served
        = some { isTCP := false, acceptTimeoutNs := none, fromFd := some fd } := by
  refine ⟨by simp [FdListen, h], by simp [FdListen, h], ?_, ?_⟩
  · cases ha : (s.addr == "") with
    | true => simp [FdListen, h, ListenAndServe, ha]
    | false => simp [FdListen, h, ListenAndServe, ha]
  · cases ha : (s.addr == "") with
    | true => simp [FdListen, h, ListenAndServe, ha]
    | false => simp [FdListen, h, ListenAndServe, ha]

/-- Witness for `fdListen_failure_leaves_listener_set` at fd 5 wrapping to a
non-TCP listener. -/
theorem fdListen_failure_leaves_listener_set_witness :
    (FdListen (fun _ => FdKind.listener false) 5
        { addr := ":8080", listener := none, listenerFile := none }).2
      = some GoErr.notTCPErr :=
  (fdListen_failure_leaves_listener_set (fun _ => FdKind.listener false) 5
      { addr := ":8080", listener := none, listenerFile := none }
      { resolveOk := true, bindOk := true, fileOk := true, nonblockOk := true,
        freshFd := 7 } rfl).1

end Falcore
